import Mathlib

/-!
Verification of the multi-asset stock/crypto analysis pipeline.

Shallow embedding of the repository's core logic:
* `analyzer.py` — `AnalysisResult` (pydantic model), `GeminiAnalyzer.analyze`
  (tenacity-retried model call), `GeminiAnalyzer._parse_response`
  (fence stripping + JSON parse + schema validation).
* `main.py` — `StockAnalysisPipeline`: `is_crypto`, `fetch_and_save_stock_data`,
  `analyze_stock`, `process_single_stock`, `run`, `_send_notifications`.
* `data_provider/crypto_fetcher.py` — `CryptoFetcher.get_crypto_data`
  (derived `change` / `pct_change` columns).

External collaborators (the generative-model transport, `json.loads`, the
storage layer, the notification channel, the search service) are modelled as
explicit oracle parameters / environment records; machine reals are modelled
as exact rationals.
-/

namespace DailyStock

/-! ## Data model: `AnalysisResult` (analyzer.py, class AnalysisResult) -/

/-- The nine-field pydantic model `AnalysisResult` of `analyzer.py`. -/
structure AnalysisResult where
  code : String
  name : String
  operation_advice : String
  sentiment_score : Int
  trend_prediction : String
  risk_level : String
  analysis_points : List String
  technical_indicators : List (String × String)
  summary : String
deriving DecidableEq, Repr

/-- JSON values as produced by `json.loads` (numbers restricted to the
integers, which is all the schema's typed fields use). -/
inductive Json where
  | null
  | bool (b : Bool)
  | int (n : Int)
  | str (s : String)
  | arr (elts : List Json)
  | obj (fields : List (String × Json))
deriving Repr

/-- Key lookup in a parsed JSON object.  `json.loads` builds a Python dict,
where a duplicated key keeps the last occurrence, hence the reversed scan. -/
def getField (fields : List (String × Json)) (k : String) : Option Json :=
  (fields.reverse.find? (fun p => p.1 == k)).map (fun p => p.2)

/-- A `str`-typed pydantic field: accepts exactly a JSON string. -/
def Json.asStr : Json → Option String
  | .str s => some s
  | _ => none

/-- The digits of a decimal-integer literal: a non-empty all-digit string,
read as a natural number. -/
def digitsToNat : List Char → Option Nat
  | [] => none
  | cs =>
    if cs.all Char.isDigit then
      some (cs.foldl (fun acc c => acc * 10 + (c.toNat - 48)) 0)
    else none

/-- The decimal core of pydantic's lax `str → int` coercion (shared by
`int(v)` in v1 and `str_as_int` in v2): surrounding whitespace is trimmed,
then an optional sign precedes one or more digits.  Exotic spellings
pydantic may additionally accept (exponent or decimal-point forms,
underscore separators) are outside this model. -/
def decimalInt (s : String) : Option Int :=
  match ((s.data.dropWhile Char.isWhitespace).reverse.dropWhile
      Char.isWhitespace).reverse with
  | '-' :: ds => (digitsToNat ds).map (fun n => -(n : Int))
  | '+' :: ds => (digitsToNat ds).map (fun n => (n : Int))
  | ds => (digitsToNat ds).map (fun n => (n : Int))

/-- An `int`-typed pydantic field under default (lax) validation: accepts a
JSON integer, and coerces a decimal-integer string such as `"55"` — the
model is not configured strict, so `AnalysisResult(**data)` accepts
`{"sentiment_score": "55", ...}`.  Booleans are rejected (pydantic v2
default); non-integer JSON numbers (integral floats would also coerce) are
outside this model's integer-only number universe. -/
def Json.asInt : Json → Option Int
  | .int n => some n
  | .str s => decimalInt s
  | _ => none

/-- Whether a JSON value is a string. -/
def Json.isString : Json → Bool
  | .str _ => true
  | _ => false

/-- The underlying string of a JSON string (junk elsewhere; only applied
under an `isString` guard). -/
def Json.getStr : Json → String
  | .str s => s
  | _ => ""

/-- A `List[str]`-typed pydantic field: a JSON array whose elements are all
strings. -/
def Json.asStrList : Json → Option (List String)
  | .arr xs =>
    if xs.all Json.isString then some (xs.map Json.getStr) else none
  | _ => none

/-- A `Dict[str, str]`-typed pydantic field: a JSON object whose values are
all strings. -/
def Json.asStrMap : Json → Option (List (String × String))
  | .obj kvs =>
    if kvs.all (fun p => Json.isString p.2) then
      some (kvs.map (fun p => (p.1, Json.getStr p.2)))
    else none
  | _ => none

/-- `AnalysisResult(**data)`: pydantic construction of the nine-field model
from a parsed JSON value, under default (lax) validation.  Fails (`none`,
i.e. a `ValidationError` / `TypeError` in the source) when the value is not
an object or when any of the nine declared fields is missing or fails its
field validation — where the `int` field also coerces decimal-integer
strings (see `Json.asInt`); extra fields are ignored, as pydantic does by
default. -/
def construct (j : Json) : Option AnalysisResult :=
  match j with
  | .obj f =>
    match (getField f "code").bind Json.asStr,
          (getField f "name").bind Json.asStr,
          (getField f "operation_advice").bind Json.asStr,
          (getField f "sentiment_score").bind Json.asInt,
          (getField f "trend_prediction").bind Json.asStr,
          (getField f "risk_level").bind Json.asStr,
          (getField f "analysis_points").bind Json.asStrList,
          (getField f "technical_indicators").bind Json.asStrMap,
          (getField f "summary").bind Json.asStr with
    | some code, some name, some advice, some score, some trend,
      some risk, some points, some tech, some summary =>
        some ⟨code, name, advice, score, trend, risk, points, tech, summary⟩
    | _, _, _, _, _, _, _, _, _ => none
  | _ => none

/-! Spec-side well-typedness predicate for claim C2, written after the
claim's words: the parsed JSON object contains all nine fields, present and
correctly typed. -/

/-- The claim's notion of "field `k` is present and is a string". -/
def hasStrField (f : List (String × Json)) (k : String) : Prop :=
  ∃ s, getField f k = some (Json.str s)

/-- The claim's notion of "field `k` is present and is an integer". -/
def hasIntField (f : List (String × Json)) (k : String) : Prop :=
  ∃ n, getField f k = some (Json.int n)

/-- The claim's notion of "field `k` is present and is an array of
strings". -/
def hasStrListField (f : List (String × Json)) (k : String) : Prop :=
  ∃ xs, getField f k = some (Json.arr xs) ∧ ∀ x ∈ xs, ∃ s, x = Json.str s

/-- The claim's notion of "field `k` is present and is a string-to-string
mapping". -/
def hasStrMapField (f : List (String × Json)) (k : String) : Prop :=
  ∃ kvs, getField f k = some (Json.obj kvs) ∧ ∀ p ∈ kvs, ∃ s, p.2 = Json.str s

/-- Spec-side predicate (claim C2, as stated): the parsed JSON value is an
object with all nine fields of `AnalysisResult` present and correctly
typed. -/
def NineFieldsTyped (j : Json) : Prop :=
  ∃ f, j = Json.obj f ∧
    hasStrField f "code" ∧ hasStrField f "name" ∧
    hasStrField f "operation_advice" ∧ hasIntField f "sentiment_score" ∧
    hasStrField f "trend_prediction" ∧ hasStrField f "risk_level" ∧
    hasStrListField f "analysis_points" ∧
    hasStrMapField f "technical_indicators" ∧ hasStrField f "summary"

/-- Lax acceptance of an `int` field: a JSON integer, or a decimal-integer
string that pydantic's default validation coerces. -/
def hasLaxIntField (f : List (String × Json)) (k : String) : Prop :=
  (∃ n, getField f k = some (Json.int n)) ∨
  (∃ s n, getField f k = some (Json.str s) ∧ decimalInt s = some n)

/-- Spec-side predicate (claim C2, amended): the parsed JSON value is an
object with all nine fields present and accepted by pydantic's default
(lax) validation — correctly typed, except that `sentiment_score` also
accepts a coercible decimal-integer string. -/
def NineFieldsLax (j : Json) : Prop :=
  ∃ f, j = Json.obj f ∧
    hasStrField f "code" ∧ hasStrField f "name" ∧
    hasStrField f "operation_advice" ∧ hasLaxIntField f "sentiment_score" ∧
    hasStrField f "trend_prediction" ∧ hasStrField f "risk_level" ∧
    hasStrListField f "analysis_points" ∧
    hasStrMapField f "technical_indicators" ∧ hasStrField f "summary"

/-! ## Response sanitization (analyzer.py, `GeminiAnalyzer._parse_response`)

`clean_text = re.sub(r'<fence>json\n?|\n?<fence>', '', text).strip()` where
`<fence>` stands for three backticks.  `re.sub` scans left to right and
removes every non-overlapping match, trying the alternation's first branch
first at each position, with the optional `\n` taken greedily. -/

/-- The backtick character (code point 96). -/
def bt : Char := Char.ofNat 96

/-- The left-to-right scan of
`re.sub(r'<fence>json\n?|\n?<fence>', '', text)` over three-backtick fences:
at each position, first try `<fence>json` with an optional trailing newline,
then a fence with an optional leading newline; on a match drop the matched
characters and resume after them, otherwise keep the character and advance. -/
def stripFences : List Char → List Char
  | c1 :: c2 :: c3 :: rest =>
    if c1 = bt ∧ c2 = bt ∧ c3 = bt then
      match rest with
      | 'j' :: 's' :: 'o' :: 'n' :: '\n' :: r2 => stripFences r2
      | 'j' :: 's' :: 'o' :: 'n' :: r2 => stripFences r2
      | r => stripFences r
    else if c1 = '\n' ∧ c2 = bt ∧ c3 = bt then
      match rest with
      | c4 :: r2 =>
        if c4 = bt then stripFences r2
        else c1 :: stripFences (c2 :: c3 :: c4 :: r2)
      | [] => [c1, c2, c3]
    else
      c1 :: stripFences (c2 :: c3 :: rest)
  | l => l

/-- The fenced-code-block wrapping of a response text:
`<fence>json\n` before, `\n<fence>` after. -/
def fenceWrap (t : List Char) : List Char :=
  bt :: bt :: bt :: 'j' :: 's' :: 'o' :: 'n' :: '\n' :: (t ++ ['\n', bt, bt, bt])

/-! Step lemmas for `stripFences`, one per scan decision. -/

/-- Scan step: a fence followed by `json` and a newline consumes all of it. -/
lemma strip_fence_json_nl (r : List Char) :
    stripFences (bt :: bt :: bt :: 'j' :: 's' :: 'o' :: 'n' :: '\n' :: r) =
      stripFences r := by
  simp [stripFences]

/-- Scan step: a fence followed by `json` and then a non-newline consumes
the fence and the `json`. -/
lemma strip_fence_json (b : Char) (r : List Char) (hb : b ≠ '\n') :
    stripFences (bt :: bt :: bt :: 'j' :: 's' :: 'o' :: 'n' :: b :: r) =
      stripFences (b :: r) := by
  rw [stripFences.eq_def]
  simp only [and_self, if_true, if_pos]
  split
  · simp_all
  · simp_all
  · simp_all

/-- Scan step: a fence not followed by `j` consumes just the fence. -/
lemma strip_fence_notJ (a : Char) (r : List Char) (ha : a ≠ 'j') :
    stripFences (bt :: bt :: bt :: a :: r) = stripFences (a :: r) := by
  rw [stripFences.eq_def]
  simp only [and_self, if_true, if_pos]
  split
  · simp_all
  · simp_all
  · rfl

/-- Scan step: a fence followed by `j` but not `s` consumes just the
fence. -/
lemma strip_fence_notS (a : Char) (r : List Char) (ha : a ≠ 's') :
    stripFences (bt :: bt :: bt :: 'j' :: a :: r) = stripFences ('j' :: a :: r) := by
  rw [stripFences.eq_def]
  simp only [and_self, if_true, if_pos]
  split
  · simp_all
  · simp_all
  · rfl

/-- Scan step: a fence followed by `js` but not `o` consumes just the
fence. -/
lemma strip_fence_notO (a : Char) (r : List Char) (ha : a ≠ 'o') :
    stripFences (bt :: bt :: bt :: 'j' :: 's' :: a :: r) =
      stripFences ('j' :: 's' :: a :: r) := by
  rw [stripFences.eq_def]
  simp only [and_self, if_true, if_pos]
  split
  · simp_all
  · simp_all
  · rfl

/-- Scan step: a fence followed by `jso` but not `n` consumes just the
fence. -/
lemma strip_fence_notN (a : Char) (r : List Char) (ha : a ≠ 'n') :
    stripFences (bt :: bt :: bt :: 'j' :: 's' :: 'o' :: a :: r) =
      stripFences ('j' :: 's' :: 'o' :: a :: r) := by
  rw [stripFences.eq_def]
  simp only [and_self, if_true, if_pos]
  split
  · simp_all
  · simp_all
  · rfl

/-- Scan step: a newline followed by a full fence is consumed entirely. -/
lemma strip_nl_fence (r : List Char) :
    stripFences ('\n' :: bt :: bt :: bt :: r) = stripFences r := by
  have hnb : ('\n' : Char) ≠ bt := by decide
  simp [stripFences, hnb, Ne.symm hnb]

/-- Scan step: a newline followed by only two backticks before a non-backtick
keeps the newline and resumes after it. -/
lemma strip_nl_two (c : Char) (r : List Char) (hc : c ≠ bt) :
    stripFences ('\n' :: bt :: bt :: c :: r) =
      '\n' :: stripFences (bt :: bt :: c :: r) := by
  have hnb : ('\n' : Char) ≠ bt := by decide
  rw [stripFences.eq_def]
  simp [hnb, Ne.symm hnb, hc]

/-- Scan step: when neither alternation branch can match at the current
position, the character is kept and the scan resumes one position later. -/
lemma strip_other (c1 c2 c3 : Char) (r : List Char)
    (h1 : ¬(c1 = bt ∧ c2 = bt ∧ c3 = bt)) (h2 : ¬(c1 = '\n' ∧ c2 = bt ∧ c3 = bt)) :
    stripFences (c1 :: c2 :: c3 :: r) = c1 :: stripFences (c2 :: c3 :: r) := by
  rw [stripFences.eq_def]
  simp only [h1, h2, if_false, if_neg]

/-- Appending a closing fence `\n<fence>` to any text does not change the
result of the fence-stripping scan: `re.sub` removes the appended marker and
nothing else changes. -/
theorem stripFences_append_close (t : List Char) :
    stripFences (t ++ ['\n', bt, bt, bt]) = stripFences t := by
  have key : ∀ n (t : List Char), t.length ≤ n →
      stripFences (t ++ ['\n', bt, bt, bt]) = stripFences t := by
    intro n
    induction n with
    | zero =>
      intro t ht
      obtain rfl : t = [] := List.length_eq_zero.mp (Nat.le_zero.mp ht)
      decide
    | succ n ih =>
      intro t ht
      have hnb : ('\n' : Char) ≠ bt := by decide
      rcases t with _ | ⟨c1, _ | ⟨c2, _ | ⟨c3, rest⟩⟩⟩
      · decide
      · simp [stripFences, hnb, Ne.symm hnb]
      · simp [stripFences, hnb, Ne.symm hnb]
      · have hlen : rest.length + 3 ≤ n + 1 := by simpa using ht
        by_cases h1 : c1 = bt ∧ c2 = bt ∧ c3 = bt
        · obtain ⟨rfl, rfl, rfl⟩ := h1
          simp only [List.cons_append]
          rcases rest with _ | ⟨a1, rest⟩
          · decide
          by_cases ha1 : a1 = 'j'
          case neg =>
            simp only [List.cons_append]
            rw [strip_fence_notJ a1 (rest ++ ['\n', bt, bt, bt]) ha1,
                strip_fence_notJ a1 rest ha1]
            exact ih (a1 :: rest) (by simp at hlen ⊢; omega)
          subst ha1
          rcases rest with _ | ⟨a2, rest⟩
          · decide
          by_cases ha2 : a2 = 's'
          case neg =>
            simp only [List.cons_append]
            rw [strip_fence_notS a2 (rest ++ ['\n', bt, bt, bt]) ha2,
                strip_fence_notS a2 rest ha2]
            exact ih ('j' :: a2 :: rest) (by simp at hlen ⊢; omega)
          subst ha2
          rcases rest with _ | ⟨a3, rest⟩
          · decide
          by_cases ha3 : a3 = 'o'
          case neg =>
            simp only [List.cons_append]
            rw [strip_fence_notO a3 (rest ++ ['\n', bt, bt, bt]) ha3,
                strip_fence_notO a3 rest ha3]
            exact ih ('j' :: 's' :: a3 :: rest) (by simp at hlen ⊢; omega)
          subst ha3
          rcases rest with _ | ⟨a4, rest⟩
          · decide
          by_cases ha4 : a4 = 'n'
          case neg =>
            simp only [List.cons_append]
            rw [strip_fence_notN a4 (rest ++ ['\n', bt, bt, bt]) ha4,
                strip_fence_notN a4 rest ha4]
            exact ih ('j' :: 's' :: 'o' :: a4 :: rest) (by simp at hlen ⊢; omega)
          subst ha4
          rcases rest with _ | ⟨b, r2⟩
          · decide
          by_cases hb : b = '\n'
          case pos =>
            subst hb
            simp only [List.cons_append]
            rw [strip_fence_json_nl (r2 ++ ['\n', bt, bt, bt]), strip_fence_json_nl r2]
            exact ih r2 (by simp at hlen ⊢; omega)
          case neg =>
            simp only [List.cons_append]
            rw [strip_fence_json b (r2 ++ ['\n', bt, bt, bt]) hb,
                strip_fence_json b r2 hb]
            exact ih (b :: r2) (by simp at hlen ⊢; omega)
        · by_cases h2 : c1 = '\n' ∧ c2 = bt ∧ c3 = bt
          · obtain ⟨rfl, rfl, rfl⟩ := h2
            rcases rest with _ | ⟨c4, r2⟩
            · decide
            by_cases hc4 : c4 = bt
            case pos =>
              subst hc4
              simp only [List.cons_append]
              rw [strip_nl_fence (r2 ++ ['\n', bt, bt, bt]), strip_nl_fence r2]
              exact ih r2 (by simp at hlen ⊢; omega)
            case neg =>
              simp only [List.cons_append]
              rw [strip_nl_two c4 (r2 ++ ['\n', bt, bt, bt]) hc4,
                  strip_nl_two c4 r2 hc4]
              rw [show bt :: bt :: c4 :: (r2 ++ ['\n', bt, bt, bt]) =
                    (bt :: bt :: c4 :: r2) ++ ['\n', bt, bt, bt] from rfl]
              rw [ih (bt :: bt :: c4 :: r2) (by simp at hlen ⊢; omega)]
          · simp only [List.cons_append]
            rw [strip_other c1 c2 c3 (rest ++ ['\n', bt, bt, bt]) h1 h2,
                strip_other c1 c2 c3 rest h1 h2]
            rw [show c2 :: c3 :: (rest ++ ['\n', bt, bt, bt]) =
                  (c2 :: c3 :: rest) ++ ['\n', bt, bt, bt] from rfl]
            rw [ih (c2 :: c3 :: rest) (by simp at hlen ⊢; omega)]
  exact key t.length t le_rfl

/-- Stripping fences from a wrapped response equals stripping fences from
the bare response. -/
theorem stripFences_fenceWrap (t : List Char) :
    stripFences (fenceWrap t) = stripFences t := by
  rw [fenceWrap, strip_fence_json_nl, stripFences_append_close]

/-- Python `str.isspace` characters relevant to `str.strip()`. -/
def isPyWhitespace (c : Char) : Bool :=
  c = ' ' || c = '\t' || c = '\n' || c = '\r' || c = '\x0b' || c = '\x0c'

/-- Python `str.strip()`: drop leading and trailing whitespace. -/
def pyStrip (l : List Char) : List Char :=
  ((l.dropWhile isPyWhitespace).reverse.dropWhile isPyWhitespace).reverse

/-- `clean_text` of `_parse_response`: strip fenced-code-block markers, then
surrounding whitespace. -/
def sanitize (t : List Char) : List Char :=
  pyStrip (stripFences t)

/-- `_parse_response(text)`: sanitize, `json.loads` (an external library,
passed as the oracle `jsonLoads`; `none` models `JSONDecodeError`), then
pydantic construction.  Every failure is caught and returns `None`. -/
def parseResponse (jsonLoads : List Char → Option Json) (t : List Char) :
    Option AnalysisResult :=
  (jsonLoads (sanitize t)).bind construct


/-! ## Asset classification (main.py, `StockAnalysisPipeline.is_crypto`) -/

/-- `is_crypto`: a code is treated as a cryptocurrency iff it contains at
least one alphabetic character (`any(c.isalpha() for c in code)`). -/
def isCrypto (code : String) : Bool :=
  code.data.any Char.isAlpha

/-! ## Crypto daily data (crypto_fetcher.py, `CryptoFetcher.get_crypto_data`) -/

/-- `Series.diff()` over the close column: the first element is NaN
(modelled `none`), element `t > 0` is `close[t] - close[t-1]`. -/
def seriesDiff (xs : List ℚ) : List (Option ℚ) :=
  match xs with
  | [] => []
  | _ :: rest => none :: List.zipWith (fun a b => some (a - b)) rest xs

/-- `Series.pct_change()` over the close column: the first element is NaN
(modelled `none`), element `t > 0` is `close[t] / close[t-1] - 1`. -/
def seriesPctChange (xs : List ℚ) : List (Option ℚ) :=
  match xs with
  | [] => []
  | _ :: rest => none :: List.zipWith (fun a b => some (a / b - 1)) rest xs

/-- `fillna(0)` over a derived column. -/
def fillna (xs : List (Option ℚ)) : List ℚ :=
  xs.map (fun o => o.getD 0)

/-- The column-oriented normalized daily dataframe built by
`get_crypto_data` (prices as exact rationals; the date/open/high/low/volume
columns play no role in any claim and are omitted). -/
structure CryptoFrame where
  close : List ℚ
  change : List ℚ
  pct_change : List ℚ
deriving DecidableEq, Repr

/-- `CryptoFetcher.get_crypto_data`: download the close series (the oracle
`yfDownload` models `yf.download`; `Except.error` models a raised exception,
an empty list models an empty dataframe), return `None` when empty or on an
exception, otherwise compute `df['change'] = df['close'].diff()`,
`df['pct_change'] = df['close'].pct_change() * 100` and `df.fillna(0)`. -/
def getCryptoData (yfDownload : String → Except String (List ℚ))
    (symbol : String) : Option CryptoFrame :=
  match yfDownload symbol with
  | .error _ => none
  | .ok closes =>
    if closes.isEmpty then none
    else some ⟨closes, fillna (seriesDiff closes),
      fillna ((seriesPctChange closes).map (Option.map (fun q => q * 100)))⟩

/-! ## The resilient insight client (analyzer.py, `GeminiAnalyzer.analyze`)

`analyze` is decorated with
`tenacity.retry(retry_if_exception_type(Exception), stop_after_attempt(3),
wait_exponential(multiplier=1, min=2, max=10))`.  The body returns `None`
immediately when no API key is configured, otherwise builds the prompts,
performs one blocking model call (which may raise) and parses the response
with `_parse_response` (which catches every parse/validation error and
returns `None` instead of raising). -/

/-- `tenacity.wait_exponential(multiplier=1, min=2, max=10)`: the wait, in
seconds, after failed attempt number `attempt`:
`max(min_, min(multiplier * 2 ** attempt, max_))`. -/
def waitExponential (attempt : Nat) : Nat :=
  min 10 (max 2 (2 ^ attempt))

/-- The observable behaviour of one `analyze` run: final outcome
(`Except.error ()` models tenacity's `RetryError` after exhausting all
attempts), number of attempts started, number of model calls issued, and
the list of backoff waits slept between attempts. -/
structure RunStats where
  outcome : Except Unit (Option AnalysisResult)
  attempts : Nat
  modelCalls : Nat
  waits : List Nat
deriving Repr

/-- One execution of the decorated `analyze` body, at attempt number `k`:
if no API key is configured, return `None` without touching the model;
otherwise issue the model call (`env k` is the environment's response for
attempt `k`, `Except.error` modelling a raised exception, which the body
re-raises to trigger the retry) and parse it with `_parse_response`.
Returns the body's outcome and the number of model calls issued. -/
def attemptOnce (jsonLoads : List Char → Option Json) (apiKey : Option String)
    (env : Nat → Except String (List Char)) (k : Nat) :
    Except String (Option AnalysisResult) × Nat :=
  match apiKey with
  | none => (.ok none, 0)
  | some _ =>
    match env k with
    | .error e => (.error e, 1)
    | .ok t => (.ok (parseResponse jsonLoads t), 1)

/-- The tenacity retry loop: `remaining` attempts are left, the next attempt
is number `k`; accumulates model calls and the (reversed) waits.  A raised
exception on a non-final attempt sleeps `waitExponential k` and retries; a
raised exception on the final attempt yields `RetryError` with no further
attempt. -/
def retryLoop (jsonLoads : List Char → Option Json) (apiKey : Option String)
    (env : Nat → Except String (List Char)) :
    Nat → Nat → Nat → List Nat → RunStats
  | 0, k, calls, ws => ⟨.error (), k - 1, calls, ws.reverse⟩
  | remaining + 1, k, calls, ws =>
    match attemptOnce jsonLoads apiKey env k with
    | (.ok v, c) => ⟨.ok v, k, calls + c, ws.reverse⟩
    | (.error _, c) =>
      match remaining with
      | 0 => ⟨.error (), k, calls + c, ws.reverse⟩
      | r + 1 =>
        retryLoop jsonLoads apiKey env (r + 1) (k + 1) (calls + c)
          (waitExponential k :: ws)

/-- `GeminiAnalyzer.analyze` under the tenacity decorator: up to 3 total
attempts starting at attempt number 1. -/
def analyze (jsonLoads : List Char → Option Json) (apiKey : Option String)
    (env : Nat → Except String (List Char)) : RunStats :=
  retryLoop jsonLoads apiKey env 3 1 0 []

/-! ## The pipeline (main.py, `StockAnalysisPipeline`) -/

/-- Externally observable events emitted while the pipeline runs. -/
inductive Ev where
  /-- `fetch_and_save_stock_data` was invoked for a symbol. -/
  | fetchStart (code : String)
  /-- an external data source (yfinance / AkShare) was contacted. -/
  | extFetch (code : String)
  /-- `db.save_daily_data` wrote a dataset. -/
  | save (code : String)
  /-- `analyze_stock` was invoked for a symbol. -/
  | analyzeStart (code : String)
  /-- a single-stock notification was sent. -/
  | notifySingle (code : String)
  /-- the aggregate dashboard report was sent. -/
  | notifyAgg
deriving DecidableEq, Repr

/-- Modelled from the spec: the storage collaborator (`storage.py`, not
under `src/`).  Its dedup-relevant state is which symbols already have a
dataset dated today: `has_today_data(code, today)` is the application of
this map. -/
def DB : Type := String → Bool

/-- Modelled from the spec: `save_daily_data` stores today's dataset for
the symbol ("one logical dataset per symbol per calendar day"), after which
`has_today_data` reports true for it. -/
def dbSave (db : DB) (code : String) : DB :=
  fun c => if c = code then true else db c

/-- The environment of external collaborators seen by one pipeline run. -/
structure PipelineEnv where
  /-- `yf.download` close series per symbol (see `getCryptoData`). -/
  yfDownload : String → Except String (List ℚ)
  /-- `DataFetcherManager.get_daily_data` for equities: rows of the daily
  dataframe, `Except.error` modelling a raised exception. -/
  equityFetch : String → Except String (List ℚ)
  /-- `db.get_analysis_context`: whether a stored technical context exists
  for the symbol (its payload is opaque to the claims). -/
  getContext : String → Option Unit
  /-- The end-to-end outcome of the `GeminiAnalyzer.analyze` call as
  observed by `analyze_stock` for a symbol: `none` models both a parsed
  failure (`None`) and a raised/exhausted error, which `analyze_stock`
  catches and converts to `None`. -/
  modelAnalyze : String → Option AnalysisResult
  /-- `NotificationService.is_available()`. -/
  notifierAvailable : Bool

/-- `fetch_and_save_stock_data(code, force_refresh)`: dedup short-circuit
on `has_today_data`, then dispatch on `is_crypto` to the crypto or equity
raw client, fail on an empty dataset, otherwise persist.  Returns the
`(success, error)` pair of the source together with the updated storage
state and the emitted events. -/
def fetchAndSaveStockData (env : PipelineEnv) (db : DB) (code : String)
    (forceRefresh : Bool) : (Bool × Option String) × DB × List Ev :=
  if ¬forceRefresh ∧ db code then ((true, none), db, [Ev.fetchStart code])
  else if isCrypto code then
    match getCryptoData env.yfDownload code with
    | none => ((false, some "empty"), db, [Ev.fetchStart code, Ev.extFetch code])
    | some _ =>
      ((true, none), dbSave db code,
        [Ev.fetchStart code, Ev.extFetch code, Ev.save code])
  else
    match env.equityFetch code with
    | .error e => ((false, some e), db, [Ev.fetchStart code, Ev.extFetch code])
    | .ok rows =>
      if rows.isEmpty then
        ((false, some "empty"), db, [Ev.fetchStart code, Ev.extFetch code])
      else
        ((true, none), dbSave db code,
          [Ev.fetchStart code, Ev.extFetch code, Ev.save code])

/-- `analyze_stock(code)`: gather the enhancement inputs, read the stored
analysis context (`None` context aborts with no result), then run the
analyzer; any raised error is caught and converted to `None`.  The net
outcome of the sentiment/realtime/chip/search/`analyze` chain is the
`modelAnalyze` oracle. -/
def analyzeStock (env : PipelineEnv) (code : String) :
    Option AnalysisResult × List Ev :=
  match env.getContext code with
  | none => (none, [Ev.analyzeStart code])
  | some _ => (env.modelAnalyze code, [Ev.analyzeStart code])

/-- `process_single_stock(code, skip_analysis, single_stock_notify)`:
fetch-and-save (its `(success, error)` result is bound but never
consulted), return `None` under `skip_analysis`, otherwise analyze and —
when a result was produced, single-stock notification is requested and the
notifier channel is available — dispatch one single-stock report. -/
def processSingleStock (env : PipelineEnv) (db : DB) (code : String)
    (skipAnalysis singleStockNotify : Bool) :
    Option AnalysisResult × DB × List Ev :=
  let f := fetchAndSaveStockData env db code false
  if skipAnalysis then (none, f.2.1, f.2.2)
  else
    let a := analyzeStock env code
    match a.1 with
    | some r =>
      if singleStockNotify ∧ env.notifierAvailable then
        (some r, f.2.1, f.2.2 ++ a.2 ++ [Ev.notifySingle code])
      else (some r, f.2.1, f.2.2 ++ a.2)
    | none => (none, f.2.1, f.2.2 ++ a.2)

/-- The worker-pool phase of `run`: one task per symbol, collected in
completion order (the `order` list); non-`None` results are appended. -/
def runTasks (env : PipelineEnv) (dryRun notifyArg : Bool) :
    DB → List String → List AnalysisResult × DB × List Ev
  | db, [] => ([], db, [])
  | db, c :: cs =>
    let p := processSingleStock env db c dryRun notifyArg
    let rest := runTasks env dryRun notifyArg p.2.1 cs
    (match p.1 with
     | some r => r :: rest.1
     | none => rest.1, rest.2.1, p.2.2 ++ rest.2.2)

/-- `run(stock_codes, dry_run, send_notification)` on an explicit symbol
list, with `order` the completion order of the worker pool: each task gets
`skip_analysis = dry_run` and
`single_stock_notify and send_notification`; after the join barrier, if
results are non-empty, notifications are on and this is not a dry run, the
aggregate dashboard report is dispatched unless per-symbol mode is
selected (`_send_notifications` sends only when the channel is
available). -/
def run (env : PipelineEnv) (db : DB) (order : List String)
    (dryRun sendNotification singleStockNotify : Bool) :
    List AnalysisResult × DB × List Ev :=
  let t := runTasks env dryRun (singleStockNotify && sendNotification) db order
  let agg :=
    if ¬t.1.isEmpty ∧ sendNotification ∧ ¬dryRun then
      if ¬singleStockNotify then
        if env.notifierAvailable then [Ev.notifyAgg] else []
      else []
    else []
  (t.1, t.2.1, t.2.2 ++ agg)

/-- Count of external-source contacts in an event list. -/
def countExt (evs : List Ev) : Nat :=
  (evs.filter fun e => match e with | Ev.extFetch _ => true | _ => false).length

/-- Count of single-stock notifications in an event list. -/
def countSingleNotify (evs : List Ev) : Nat :=
  (evs.filter fun e => match e with | Ev.notifySingle _ => true | _ => false).length

/-- Count of aggregate-report notifications in an event list. -/
def countAggNotify (evs : List Ev) : Nat :=
  (evs.filter fun e => match e with | Ev.notifyAgg => true | _ => false).length

/-- Whether an event is a `fetch_and_save_stock_data` invocation. -/
def isFetchStart : Ev → Bool
  | Ev.fetchStart _ => true
  | _ => false

/-- Whether an event is an `analyze_stock` invocation. -/
def isAnalyzeStart : Ev → Bool
  | Ev.analyzeStart _ => true
  | _ => false

/-- Whether an event is a notification dispatch of either mode. -/
def isNotifyEv : Ev → Bool
  | Ev.notifySingle _ => true
  | Ev.notifyAgg => true
  | _ => false

/-! ## Derived-column index lemmas (for claim C8) -/

lemma fillna_diff_length (xs : List ℚ) :
    (fillna (seriesDiff xs)).length = xs.length := by
  cases xs with
  | nil => rfl
  | cons x rest => simp [fillna, seriesDiff]

lemma fillna_pct_length (xs : List ℚ) :
    (fillna ((seriesPctChange xs).map (Option.map (fun q => q * 100)))).length =
      xs.length := by
  cases xs with
  | nil => rfl
  | cons x rest => simp [fillna, seriesPctChange]

lemma fillna_diff_getD_succ (xs : List ℚ) (t : Nat) (ht : t + 1 < xs.length) :
    (fillna (seriesDiff xs)).getD (t + 1) 0 = xs.getD (t + 1) 0 - xs.getD t 0 := by
  cases xs with
  | nil => simp at ht
  | cons x rest =>
    have htr : t < rest.length := by simpa using ht
    have hzl : t < (List.zipWith (fun a b => some (a - b)) rest (x :: rest)).length := by
      simp [htr]
    have hml : t < ((List.zipWith (fun a b : ℚ => some (a - b)) rest (x :: rest)).map
        (fun o => o.getD 0)).length := by simpa using hzl
    simp only [seriesDiff, fillna, List.map_cons]
    rw [List.getD_cons_succ, List.getD_eq_getElem _ _ hml, List.getElem_map,
      List.getElem_zipWith, List.getD_eq_getElem _ _ ht,
      List.getD_eq_getElem _ _ (Nat.lt_of_succ_lt ht)]
    simp

lemma fillna_pct_getD_succ (xs : List ℚ) (t : Nat) (ht : t + 1 < xs.length) :
    (fillna ((seriesPctChange xs).map (Option.map (fun q => q * 100)))).getD (t + 1) 0 =
      (xs.getD (t + 1) 0 / xs.getD t 0 - 1) * 100 := by
  cases xs with
  | nil => simp at ht
  | cons x rest =>
    have htr : t < rest.length := by simpa using ht
    have hzl : t < (List.zipWith (fun a b : ℚ => some (a / b - 1)) rest (x :: rest)).length := by
      simp [htr]
    have hml : t < (((List.zipWith (fun a b : ℚ => some (a / b - 1)) rest (x :: rest)).map
        (Option.map (fun q => q * 100))).map (fun o => o.getD 0)).length := by simpa using hzl
    simp only [seriesPctChange, fillna, List.map_cons, Option.map_none']
    rw [List.getD_cons_succ, List.getD_eq_getElem _ _ hml, List.getElem_map,
      List.getElem_map, List.getElem_zipWith, List.getD_eq_getElem _ _ ht,
      List.getD_eq_getElem _ _ (Nat.lt_of_succ_lt ht)]
    simp

lemma fillna_diff_getD_zero (xs : List ℚ) (hx : xs ≠ []) :
    (fillna (seriesDiff xs)).getD 0 0 = 0 := by
  cases xs with
  | nil => simp at hx
  | cons x rest => rfl

lemma fillna_pct_getD_zero (xs : List ℚ) (hx : xs ≠ []) :
    (fillna ((seriesPctChange xs).map (Option.map (fun q => q * 100)))).getD 0 0 = 0 := by
  cases xs with
  | nil => simp at hx
  | cons x rest => rfl

/-! ## Inversion lemmas for pydantic field validation (claim C2) -/

lemma isString_iff (x : Json) : Json.isString x = true ↔ ∃ s, x = Json.str s := by
  cases x <;> simp [Json.isString]

lemma bind_asStr_eq_some (o : Option Json) (s : String) :
    o.bind Json.asStr = some s ↔ o = some (Json.str s) := by
  cases o with
  | none => simp
  | some v => cases v <;> simp [Json.asStr]

lemma bind_asInt_eq_some (o : Option Json) (n : Int) :
    o.bind Json.asInt = some n ↔
      o = some (Json.int n) ∨
      ∃ s, o = some (Json.str s) ∧ decimalInt s = some n := by
  cases o with
  | none => simp
  | some v => cases v <;> simp [Json.asInt]

lemma bind_asStrList_eq_some (o : Option Json) (l : List String) :
    o.bind Json.asStrList = some l ↔
      ∃ xs, o = some (Json.arr xs) ∧ (∀ x ∈ xs, Json.isString x = true) ∧
        l = xs.map Json.getStr := by
  cases o with
  | none => simp
  | some v =>
    cases v <;> simp [Json.asStrList]
    case arr xs => exact fun _ => eq_comm

lemma bind_asStrMap_eq_some (o : Option Json) (l : List (String × String)) :
    o.bind Json.asStrMap = some l ↔
      ∃ kvs, o = some (Json.obj kvs) ∧ (∀ p ∈ kvs, Json.isString p.2 = true) ∧
        l = kvs.map (fun p => (p.1, Json.getStr p.2)) := by
  cases o with
  | none => simp
  | some v =>
    cases v <;> simp [Json.asStrMap]
    case obj kvs => exact fun _ => eq_comm

lemma all_isString_iff (xs : List Json) :
    xs.all Json.isString = true ↔ ∀ x ∈ xs, ∃ s, x = Json.str s := by
  rw [List.all_eq_true]
  constructor
  · intro h x hx
    exact (isString_iff x).mp (h x hx)
  · intro h x hx
    exact (isString_iff x).mpr (h x hx)

lemma all_values_isString_iff (kvs : List (String × Json)) :
    kvs.all (fun p => Json.isString p.2) = true ↔ ∀ p ∈ kvs, ∃ s, p.2 = Json.str s := by
  rw [List.all_eq_true]
  constructor
  · intro h p hp
    exact (isString_iff p.2).mp (h p hp)
  · intro h p hp
    exact (isString_iff p.2).mpr (h p hp)

/-- Pydantic construction succeeds exactly on JSON objects with all nine
fields present and accepted by default (lax) validation. -/
lemma construct_eq_some_iff (j : Json) :
    (∃ r, construct j = some r) ↔ NineFieldsLax j := by
  constructor
  · rintro ⟨r, hr⟩
    cases j <;> simp [construct] at hr
    case obj f =>
      split at hr
      case _ code name advice score trend risk points tech summary
          h1 h2 h3 h4 h5 h6 h7 h8 h9 =>
        refine ⟨f, rfl, ?_, ?_, ?_, ?_, ?_, ?_, ?_, ?_, ?_⟩
        · exact ⟨code, (bind_asStr_eq_some _ _).mp h1⟩
        · exact ⟨name, (bind_asStr_eq_some _ _).mp h2⟩
        · exact ⟨advice, (bind_asStr_eq_some _ _).mp h3⟩
        · rcases (bind_asInt_eq_some _ _).mp h4 with h | ⟨s, hs, hn⟩
          · exact Or.inl ⟨score, h⟩
          · exact Or.inr ⟨s, score, hs, hn⟩
        · exact ⟨trend, (bind_asStr_eq_some _ _).mp h5⟩
        · exact ⟨risk, (bind_asStr_eq_some _ _).mp h6⟩
        · obtain ⟨xs, hxs, hall, -⟩ := (bind_asStrList_eq_some _ _).mp h7
          exact ⟨xs, hxs, fun x hx => (isString_iff x).mp (hall x hx)⟩
        · obtain ⟨kvs, hkvs, hall, -⟩ := (bind_asStrMap_eq_some _ _).mp h8
          exact ⟨kvs, hkvs, fun p hp => (isString_iff p.2).mp (hall p hp)⟩
        · exact ⟨summary, (bind_asStr_eq_some _ _).mp h9⟩
      case _ => exact absurd hr (by simp)
  · rintro ⟨f, rfl, ⟨s1, e1⟩, ⟨s2, e2⟩, ⟨s3, e3⟩, h4, ⟨s5, e5⟩, ⟨s6, e6⟩,
      ⟨xs, e7, h7⟩, ⟨kvs, e8, h8⟩, ⟨s9, e9⟩⟩
    obtain ⟨n4, e4⟩ :
        ∃ n, (getField f "sentiment_score").bind Json.asInt = some n := by
      rcases h4 with ⟨n, hn⟩ | ⟨s, n, hs, hn⟩
      · exact ⟨n, (bind_asInt_eq_some _ _).mpr (Or.inl hn)⟩
      · exact ⟨n, (bind_asInt_eq_some _ _).mpr (Or.inr ⟨s, hs, hn⟩)⟩
    have hb7 : xs.all Json.isString = true := (all_isString_iff xs).mpr h7
    have hb8 : kvs.all (fun p => Json.isString p.2) = true :=
      (all_values_isString_iff kvs).mpr h8
    refine ⟨⟨s1, s2, s3, n4, s5, s6, xs.map Json.getStr,
      kvs.map (fun p => (p.1, Json.getStr p.2)), s9⟩, ?_⟩
    simp only [construct]
    rw [e1, e2, e3, e5, e6, e7, e8, e9, e4]
    simp only [Option.some_bind, Json.asStr, Json.asStrList, Json.asStrMap]
    rw [if_pos hb7, if_pos hb8]

/-! ## Pipeline helper lemmas -/

lemma dbSave_self (db : DB) (code : String) : dbSave db code code = true := by
  simp [dbSave]

/-- Dedup hit: with `force_refresh=False` and a dataset already stored for
today, the fetch returns success immediately with no external contact. -/
lemma fetch_dedup_hit (env : PipelineEnv) (db : DB) (code : String)
    (h : db code = true) :
    fetchAndSaveStockData env db code false =
      ((true, none), db, [Ev.fetchStart code]) := by
  simp [fetchAndSaveStockData, h]

/-- A successful non-dedup fetch marks today in storage and contacts the
external source exactly once. -/
lemma fetch_success_shape (env : PipelineEnv) (db : DB) (code : String)
    (hdb : db code = false) (ok : Bool) (err : Option String) (db' : DB)
    (ev : List Ev)
    (h : fetchAndSaveStockData env db code false = ((ok, err), db', ev))
    (hok : ok = true) :
    db' = dbSave db code ∧ ev = [Ev.fetchStart code, Ev.extFetch code, Ev.save code] := by
  subst hok
  unfold fetchAndSaveStockData at h
  rw [if_neg (by simp [hdb])] at h
  split at h
  · split at h <;> simp_all
  · split at h
    · simp_all
    · split at h <;> simp_all

/-- A non-dedup fetch contacts the external source exactly once. -/
lemma fetch_countExt (env : PipelineEnv) (db : DB) (code : String)
    (hdb : db code = false) :
    countExt (fetchAndSaveStockData env db code false).2.2 = 1 := by
  unfold fetchAndSaveStockData
  rw [if_neg (by simp [hdb])]
  split
  · split <;> simp [countExt]
  · split
    · simp [countExt]
    · split <;> simp [countExt]

/-- The events of one fetch: exactly one `fetch_and_save_stock_data`
invocation, and never an analysis or notification event. -/
lemma fetch_evs (env : PipelineEnv) (db : DB) (code : String) (force : Bool) :
    (fetchAndSaveStockData env db code force).2.2.filter isFetchStart =
      [Ev.fetchStart code] ∧
    ∀ e ∈ (fetchAndSaveStockData env db code force).2.2,
      isAnalyzeStart e = false ∧ isNotifyEv e = false := by
  unfold fetchAndSaveStockData
  split
  · simp [isFetchStart, isAnalyzeStart, isNotifyEv]
  · split
    · split <;> simp [isFetchStart, isAnalyzeStart, isNotifyEv]
    · split
      · simp [isFetchStart, isAnalyzeStart, isNotifyEv]
      · split <;> simp [isFetchStart, isAnalyzeStart, isNotifyEv]

lemma countSingleNotify_append (a b : List Ev) :
    countSingleNotify (a ++ b) = countSingleNotify a + countSingleNotify b := by
  simp [countSingleNotify, List.filter_append]

lemma countAggNotify_append (a b : List Ev) :
    countAggNotify (a ++ b) = countAggNotify a + countAggNotify b := by
  simp [countAggNotify, List.filter_append]

lemma countSingleNotify_eq_zero (evs : List Ev)
    (h : ∀ e ∈ evs, isNotifyEv e = false) : countSingleNotify evs = 0 := by
  rw [countSingleNotify, List.length_eq_zero, List.filter_eq_nil_iff]
  intro e he
  have he' := h e he
  cases e <;> simp_all [isNotifyEv]

lemma countAggNotify_eq_zero (evs : List Ev)
    (h : ∀ e ∈ evs, isNotifyEv e = false) : countAggNotify evs = 0 := by
  rw [countAggNotify, List.length_eq_zero, List.filter_eq_nil_iff]
  intro e he
  have he' := h e he
  cases e <;> simp_all [isNotifyEv]

/-- `analyze_stock` is invoked exactly once per call. -/
lemma analyzeStock_evs (env : PipelineEnv) (code : String) :
    (analyzeStock env code).2 = [Ev.analyzeStart code] := by
  unfold analyzeStock
  split <;> rfl

/-- The shape of one non-skipping task: the result is the analysis outcome
(whatever the fetch returned), and the events are the fetch events, one
`analyze_stock` invocation, and a single-stock dispatch exactly when a
result was produced, single-stock mode is on and the channel is
available. -/
lemma process_shape (env : PipelineEnv) (db : DB) (code : String)
    (notify : Bool) :
    processSingleStock env db code false notify =
      ((analyzeStock env code).1,
        (fetchAndSaveStockData env db code false).2.1,
        (fetchAndSaveStockData env db code false).2.2 ++
          [Ev.analyzeStart code] ++
          (if (analyzeStock env code).1.isSome = true ∧ notify = true ∧
              env.notifierAvailable = true then [Ev.notifySingle code]
            else [])) := by
  unfold processSingleStock
  rcases h : (analyzeStock env code).1 with _ | r
  · simp [h, analyzeStock_evs]
  · by_cases hc : notify = true ∧ env.notifierAvailable = true
    · simp [h, hc, analyzeStock_evs]
    · simp [h, hc, analyzeStock_evs]

/-- The per-task result ignores the fetch outcome entirely. -/
lemma process_result (env : PipelineEnv) (db : DB) (code : String)
    (notify : Bool) :
    (processSingleStock env db code false notify).1 =
      (analyzeStock env code).1 := by
  rw [process_shape]

/-- A skipping task returns no result and only the fetch events. -/
lemma process_skip_shape (env : PipelineEnv) (db : DB) (code : String)
    (notify : Bool) :
    processSingleStock env db code true notify =
      (none, (fetchAndSaveStockData env db code false).2.1,
        (fetchAndSaveStockData env db code false).2.2) := rfl

/-- Notification counts of one task. -/
lemma process_counts (env : PipelineEnv) (db : DB) (code : String)
    (skip notify : Bool) :
    countSingleNotify (processSingleStock env db code skip notify).2.2 =
      (if (processSingleStock env db code skip notify).1.isSome = true ∧
          notify = true ∧ env.notifierAvailable = true then 1 else 0) ∧
    countAggNotify (processSingleStock env db code skip notify).2.2 = 0 := by
  have hf : ∀ e ∈ (fetchAndSaveStockData env db code false).2.2,
      isNotifyEv e = false :=
    fun e he => ((fetch_evs env db code false).2 e he).2
  cases skip with
  | true =>
    rw [process_skip_shape]
    simp [countSingleNotify_eq_zero _ hf, countAggNotify_eq_zero _ hf]
  | false =>
    rw [process_shape]
    by_cases hc : (analyzeStock env code).1.isSome = true ∧ notify = true ∧
        env.notifierAvailable = true
    · rw [if_pos hc, if_pos hc]
      rw [countSingleNotify_append, countSingleNotify_append,
        countAggNotify_append, countAggNotify_append,
        countSingleNotify_eq_zero _ hf, countAggNotify_eq_zero _ hf]
      simp [countSingleNotify, countAggNotify]
    · rw [if_neg hc, if_neg hc]
      rw [countSingleNotify_append, countSingleNotify_append,
        countAggNotify_append, countAggNotify_append,
        countSingleNotify_eq_zero _ hf, countAggNotify_eq_zero _ hf]
      simp [countSingleNotify, countAggNotify]

/-- The results of the worker-pool phase (when analysis is not skipped) are
exactly the non-`None` analysis outcomes, in completion order, independent
of fetch outcomes and of the storage state. -/
lemma runTasks_results (env : PipelineEnv) (notify : Bool) :
    ∀ (order : List String) (db : DB),
      (runTasks env false notify db order).1 =
        order.filterMap (fun c => (analyzeStock env c).1) := by
  intro order
  induction order with
  | nil => intro db; rfl
  | cons c cs ih =>
    intro db
    simp only [runTasks]
    rw [process_result]
    rcases h : (analyzeStock env c).1 with _ | r <;>
      simp [h, ih, List.filterMap_cons]

/-- Notification counts of the worker-pool phase: one single-stock dispatch
per produced result when single-stock mode is on and the channel is
available, none otherwise; never an aggregate dispatch. -/
lemma runTasks_counts (env : PipelineEnv) (dry notify : Bool) :
    ∀ (order : List String) (db : DB),
      countSingleNotify (runTasks env dry notify db order).2.2 =
        (if notify = true ∧ env.notifierAvailable = true then
          (runTasks env dry notify db order).1.length else 0) ∧
      countAggNotify (runTasks env dry notify db order).2.2 = 0 := by
  intro order
  induction order with
  | nil => intro db; simp [runTasks, countSingleNotify, countAggNotify]
  | cons c cs ih =>
    intro db
    simp only [runTasks]
    rw [countSingleNotify_append, countAggNotify_append]
    have hp := process_counts env db c dry notify
    have hr := ih ((processSingleStock env db c dry notify).2.1)
    rcases h : (processSingleStock env db c dry notify).1 with _ | r
    · rw [h] at hp
      by_cases hc : notify = true ∧ env.notifierAvailable = true
      · rw [if_pos hc]
        simp_all
      · rw [if_neg hc]
        simp_all
    · rw [h] at hp
      by_cases hc : notify = true ∧ env.notifierAvailable = true
      · rw [if_pos hc]
        simp_all [Nat.add_comm]
      · rw [if_neg hc]
        simp_all

/-- The worker-pool phase of a dry run: no results, one fetch invocation
per symbol in completion order, and no analysis or notification events. -/
lemma runTasks_dry (env : PipelineEnv) (notify : Bool) :
    ∀ (order : List String) (db : DB),
      (runTasks env true notify db order).1 = [] ∧
      (runTasks env true notify db order).2.2.filter isFetchStart =
        order.map Ev.fetchStart ∧
      ∀ e ∈ (runTasks env true notify db order).2.2,
        isAnalyzeStart e = false ∧ isNotifyEv e = false := by
  intro order
  induction order with
  | nil => intro db; simp [runTasks]
  | cons c cs ih =>
    intro db
    simp only [runTasks]
    rw [process_skip_shape]
    have hf := fetch_evs env db c false
    have hr := ih ((fetchAndSaveStockData env db c false).2.1)
    refine ⟨hr.1, ?_, ?_⟩
    · rw [List.filter_append, hf.1, hr.2.1]
      rfl
    · intro e he
      rw [List.mem_append] at he
      rcases he with he | he
      · exact ⟨(hf.2 e he).1, (hf.2 e he).2⟩
      · exact hr.2.2 e he

/-- `run` in terms of its worker-pool phase and the aggregate-dispatch
decision. -/
lemma run_shape (env : PipelineEnv) (db : DB) (order : List String)
    (dry send single : Bool) :
    run env db order dry send single =
      ((runTasks env dry (single && send) db order).1,
        (runTasks env dry (single && send) db order).2.1,
        (runTasks env dry (single && send) db order).2.2 ++
          (if ¬(runTasks env dry (single && send) db order).1.isEmpty ∧
              send ∧ ¬dry then
            (if ¬single then
              (if env.notifierAvailable then [Ev.notifyAgg] else [])
            else [])
          else [])) := rfl

/-! ## Claims -/

/-- A nine-field JSON object whose `sentiment_score` is the *string*
`"55"` — mistyped under the claim's reading, but coerced by pydantic's
default lax validation. -/
def laxScoreJson : Json :=
  Json.obj [("code", Json.str "600519"), ("name", Json.str "Moutai"),
    ("operation_advice", Json.str "observe"), ("sentiment_score", Json.str "55"),
    ("trend_prediction", Json.str "flat"), ("risk_level", Json.str "low"),
    ("analysis_points", Json.arr [Json.str "p1"]),
    ("technical_indicators", Json.obj [("ma", Json.str "up")]),
    ("summary", Json.str "ok")]

/-- **C2** (counterexample): construction does *not* require correctly
typed fields.  `AnalysisResult(**data)` with `sentiment_score` given as the
string `"55"` succeeds — pydantic's default lax validation coerces the
numeric string to the integer 55 — even though the object is not
well-typed in the claim's sense. -/
theorem C2_schema_validation_counterexample :
    construct laxScoreJson =
      some ⟨"600519", "Moutai", "observe", 55, "flat", "low", ["p1"],
        [("ma", "up")], "ok"⟩ ∧
    ¬NineFieldsTyped laxScoreJson := by
  refine ⟨by decide, ?_⟩
  rintro ⟨f, hf, -, -, -, ⟨n, hn⟩, -⟩
  injection hf with hf
  subst hf
  simp [getField] at hn

/-- **C2** (amended): an `AnalysisResult` is constructed from a parsed
model response exactly when the JSON object contains all nine fields, each
present and accepted by pydantic's default (lax) validation — correctly
typed, except that `sentiment_score` also accepts a decimal-integer string
coerced to `int`.  Correct typing is thus sufficient but not necessary; a
missing field, or a field failing lax validation, makes construction fail
(pydantic `ValidationError`, caught in `_parse_response`) and the analysis
then yields no result. -/
theorem C2_schema_validation :
    (∀ j : Json, (∃ r, construct j = some r) ↔ NineFieldsLax j) ∧
    (∀ (jsonLoads : List Char → Option Json) (t : List Char) (j : Json),
      jsonLoads (sanitize t) = some j → ¬NineFieldsLax j →
      parseResponse jsonLoads t = none) := by
  refine ⟨construct_eq_some_iff, fun jsonLoads t j hj hbad => ?_⟩
  unfold parseResponse
  rw [hj]
  cases hc : construct j with
  | none => simp [hc]
  | some r => exact absurd ((construct_eq_some_iff j).mp ⟨r, hc⟩) hbad

/-- A well-typed nine-field JSON object used by several witnesses. -/
def goodJson : Json :=
  Json.obj [("code", Json.str "600519"), ("name", Json.str "Moutai"),
    ("operation_advice", Json.str "observe"), ("sentiment_score", Json.int 55),
    ("trend_prediction", Json.str "flat"), ("risk_level", Json.str "low"),
    ("analysis_points", Json.arr [Json.str "p1"]),
    ("technical_indicators", Json.obj [("ma", Json.str "up")]),
    ("summary", Json.str "ok")]

/-- The `AnalysisResult` that `goodJson` constructs. -/
def goodResult : AnalysisResult :=
  ⟨"600519", "Moutai", "observe", 55, "flat", "low", ["p1"], [("ma", "up")], "ok"⟩

/-- A JSON object missing eight of the nine fields. -/
def badJson : Json := Json.obj [("code", Json.str "600519")]

/-- Witness for C2 (amended): a parser that returns an object missing the
`name` field (which no lax coercion can save) makes the analysis yield no
result. -/
theorem C2_schema_validation_witness :
    parseResponse (fun _ => some badJson) "x".data = none :=
  C2_schema_validation.2 (fun _ => some badJson) "x".data badJson rfl
    (by rintro ⟨f, hf, -, ⟨s, hs⟩, -⟩
        injection hf with hf
        subst hf
        simp [getField] at hs)

/-- An environment whose data sources always raise. -/
def envSourceDown : PipelineEnv :=
  ⟨fun _ => Except.error "down", fun _ => Except.error "down",
    fun _ => none, fun _ => none, false⟩

/-- An environment whose data sources always return one row. -/
def envSourceOk : PipelineEnv :=
  ⟨fun _ => Except.ok [1], fun _ => Except.ok [1],
    fun _ => none, fun _ => none, false⟩

/-- The empty storage state: no symbol has today's data. -/
def dbEmpty : DB := fun _ => false

/-- The full storage state: every symbol has today's data. -/
def dbFull : DB := fun _ => true

/-- **C4** (counterexample): two sequential `fetchDaily` calls with
`forceRefresh=false` on the same day can issue *two* external calls — when
the first call fails, nothing is stored, so the second call contacts the
source again. -/
theorem C4_fetch_dedup_counterexample :
    countExt ((fetchAndSaveStockData envSourceDown dbEmpty "600519" false).2.2 ++
      (fetchAndSaveStockData envSourceDown
        (fetchAndSaveStockData envSourceDown dbEmpty "600519" false).2.1
        "600519" false).2.2) = 2 ∧
    (fetchAndSaveStockData envSourceDown dbEmpty "600519" false).1.1 = false := by
  decide

/-- **C4** (amended): if `forceRefresh=false` and storage reports a dataset
for the symbol dated today, the daily fetch returns success immediately
with no external contact; consequently, *when the first call succeeds*, two
sequential `fetchDaily(code, forceRefresh=false)` calls on the same day
issue at most one external call.  (A failed first call stores nothing, so
the second call contacts the source again — see the counterexample.) -/
theorem C4_fetch_dedup (env : PipelineEnv) (db : DB) (code : String) :
    (db code = true →
      fetchAndSaveStockData env db code false =
        ((true, none), db, [Ev.fetchStart code])) ∧
    (∀ (ok₁ : Bool) (err₁ : Option String) (db₁ : DB) (ev₁ : List Ev)
        (ok₂ : Bool) (err₂ : Option String) (db₂ : DB) (ev₂ : List Ev),
      fetchAndSaveStockData env db code false = ((ok₁, err₁), db₁, ev₁) →
      fetchAndSaveStockData env db₁ code false = ((ok₂, err₂), db₂, ev₂) →
      ok₁ = true → countExt (ev₁ ++ ev₂) ≤ 1) := by
  refine ⟨fetch_dedup_hit env db code, ?_⟩
  intro ok₁ err₁ db₁ ev₁ ok₂ err₂ db₂ ev₂ h1 h2 hok
  by_cases hdb : db code = true
  · rw [fetch_dedup_hit env db code hdb] at h1
    obtain ⟨-, rfl, rfl⟩ : (true, none) = (ok₁, err₁) ∧ db = db₁ ∧
        [Ev.fetchStart code] = ev₁ := by
      simpa [Prod.ext_iff] using h1
    rw [fetch_dedup_hit env db code hdb] at h2
    obtain ⟨-, -, rfl⟩ : (true, none) = (ok₂, err₂) ∧ db = db₂ ∧
        [Ev.fetchStart code] = ev₂ := by
      simpa [Prod.ext_iff] using h2
    simp [countExt, isFetchStart]
  · have hdb' : db code = false := by
      cases h : db code
      · rfl
      · exact absurd h hdb
    obtain ⟨hdb1, hev1⟩ :=
      fetch_success_shape env db code hdb' ok₁ err₁ db₁ ev₁ h1 hok
    subst hdb1
    rw [fetch_dedup_hit env (dbSave db code) code (dbSave_self db code)] at h2
    obtain ⟨-, -, rfl⟩ : (true, none) = (ok₂, err₂) ∧ dbSave db code = db₂ ∧
        [Ev.fetchStart code] = ev₂ := by
      simpa [Prod.ext_iff] using h2
    subst hev1
    simp [countExt]

/-- Witness for C4: a successful first fetch fills storage, so the second
call short-circuits and the pair issues exactly one external call; a
dedup-hit call returns success with no external contact. -/
theorem C4_fetch_dedup_witness :
    countExt ((fetchAndSaveStockData envSourceOk dbEmpty "600519" false).2.2 ++
      (fetchAndSaveStockData envSourceOk
        (fetchAndSaveStockData envSourceOk dbEmpty "600519" false).2.1
        "600519" false).2.2) ≤ 1 ∧
    fetchAndSaveStockData envSourceOk dbFull "000001" false =
      ((true, none), dbFull, [Ev.fetchStart "000001"]) := by
  constructor
  · exact (C4_fetch_dedup envSourceOk dbEmpty "600519").2
      true none (dbSave dbEmpty "600519")
      [Ev.fetchStart "600519", Ev.extFetch "600519", Ev.save "600519"]
      true none (dbSave dbEmpty "600519") [Ev.fetchStart "600519"]
      (by rfl) (by rfl) rfl
  · exact (C4_fetch_dedup envSourceOk dbFull "000001").1 rfl

/-- An environment where every fetch fails but a stored analysis context
exists and the analyzer succeeds; the notifier channel is down. -/
def envFetchFailCtx : PipelineEnv :=
  ⟨fun _ => Except.error "net", fun _ => Except.error "net",
    fun _ => some (), fun _ => some goodResult, false⟩

/-- Like `envFetchFailCtx` but with the notifier channel available. -/
def envCompleted : PipelineEnv :=
  ⟨fun _ => Except.error "net", fun _ => Except.error "net",
    fun _ => some (), fun _ => some goodResult, true⟩

/-- **C3** (counterexample): a symbol whose daily-data fetch fails is *not*
terminal: `process_single_stock` ignores the fetch outcome, so analysis is
still performed and — the stored context being available and the analyzer
succeeding — the symbol *does* contribute a result to the run. -/
theorem C3_fetch_isolation_counterexample :
    (fetchAndSaveStockData envFetchFailCtx dbEmpty "600519" false).1.1 = false ∧
    (run envFetchFailCtx dbEmpty ["600519"] false false false).1 = [goodResult] ∧
    Ev.analyzeStart "600519" ∈
      (run envFetchFailCtx dbEmpty ["600519"] false false false).2.2 := by
  refine ⟨rfl, ?_, ?_⟩ <;> decide

/-- **C3** (amended): a symbol's fetch outcome does not gate its analysis —
`process_single_stock` discards the `(success, error)` pair and always
proceeds to `analyze_stock`, so each symbol contributes a result exactly
when its analysis yields one.  Task isolation does hold: `run` returns
exactly the non-`None` analysis outcomes of all symbols, regardless of pool
size or scheduling order (any completion order that is a permutation of the
symbol list gives the same results up to permutation). -/
theorem C3_fetch_isolation (env : PipelineEnv) (db : DB)
    (codes order : List String) (h : order.Perm codes) (send single : Bool) :
    (run env db order false send single).1.Perm
      (codes.filterMap fun c => (analyzeStock env c).1) ∧
    (∀ (db' : DB) (c : String) (nf : Bool),
      (processSingleStock env db' c false nf).1 = (analyzeStock env c).1) := by
  refine ⟨?_, fun db' c nf => process_result env db' c nf⟩
  rw [run_shape]
  dsimp only
  rw [runTasks_results]
  exact h.filterMap _

/-- Witness for C3 (amended) at a one-symbol run whose fetch fails. -/
theorem C3_fetch_isolation_witness :
    (run envFetchFailCtx dbEmpty ["600519"] false false false).1.Perm
      (["600519"].filterMap fun c => (analyzeStock envFetchFailCtx c).1) :=
  (C3_fetch_isolation envFetchFailCtx dbEmpty ["600519"] ["600519"]
    (List.Perm.refl _) false false).1

/-- **C7** (counterexample): in per-symbol mode with the notification
channel unavailable, a task completes with a result yet dispatches *no*
single-result notification — the claim's "each Completed result dispatches
exactly one single-result notification" does not hold unconditionally. -/
theorem C7_notification_modes_counterexample :
    (run envFetchFailCtx dbEmpty ["600519"] false true true).1 = [goodResult] ∧
    countSingleNotify
      (run envFetchFailCtx dbEmpty ["600519"] false true true).2.2 = 0 := by
  constructor <;> decide

/-- **C7** (amended): the two notification modes are mutually exclusive: in
per-symbol mode the aggregate dispatch never occurs, and in aggregate mode
no single-result dispatch ever occurs; in aggregate mode exactly one
aggregate report is dispatched iff the result collection is non-empty and
notifications are enabled (the send flag is on and the channel is
available); in per-symbol mode, *when notifications are enabled*, each
Completed result dispatches exactly one single-result notification. -/
theorem C7_notification_modes (env : PipelineEnv) (db : DB)
    (order : List String) (dry send single : Bool) :
    (single = true →
      countAggNotify (run env db order dry send single).2.2 = 0) ∧
    (single = false →
      countSingleNotify (run env db order dry send single).2.2 = 0) ∧
    (single = false →
      countAggNotify (run env db order dry send single).2.2 =
        (if (run env db order dry send single).1 ≠ [] ∧ send = true ∧
            env.notifierAvailable = true then 1 else 0)) ∧
    (single = true → send = true → env.notifierAvailable = true →
      countSingleNotify (run env db order dry send single).2.2 =
        (run env db order dry send single).1.length) := by
  have hc := runTasks_counts env dry (single && send) order db
  refine ⟨fun h1 => ?_, fun h1 => ?_, fun h1 => ?_, fun h1 h2 h3 => ?_⟩
  · subst h1
    rw [run_shape]
    dsimp only
    rw [countAggNotify_append, hc.2]
    simp [apply_ite countAggNotify, countAggNotify]
  · subst h1
    rw [run_shape]
    dsimp only
    rw [countSingleNotify_append, hc.1]
    simp [apply_ite countSingleNotify, countSingleNotify]
    intro a _ _ _ _ ha
    subst ha
    rfl
  · subst h1
    rw [run_shape]
    dsimp only
    simp only [Bool.false_and] at hc ⊢
    rw [countAggNotify_append, hc.2]
    cases dry with
    | true =>
      have hd := runTasks_dry env false order db
      rw [hd.1]
      simp [countAggNotify]
    | false =>
      by_cases he : (runTasks env false false db order).1 = [] <;>
        by_cases hs : send = true <;>
        by_cases ha : env.notifierAvailable = true <;>
        simp [he, hs, ha, countAggNotify]
  · subst h1
    subst h2
    rw [run_shape]
    dsimp only
    rw [countSingleNotify_append, hc.1]
    simp [h3, apply_ite countSingleNotify, countSingleNotify]

/-- Witness for C7 (amended): aggregate mode with an available channel and
one completed result dispatches exactly one aggregate report and no
single-result notification. -/
theorem C7_notification_modes_witness :
    countAggNotify (run envCompleted dbEmpty ["600519"] false true false).2.2 = 1 ∧
    countSingleNotify
      (run envCompleted dbEmpty ["600519"] false true false).2.2 = 0 := by
  have h := C7_notification_modes envCompleted dbEmpty ["600519"] false true false
  exact ⟨(h.2.2.1 rfl).trans (by decide), h.2.1 rfl⟩

/-- **C10**: a dry run still performs the fetch-and-persist step once per
symbol (storage may be written), performs no analysis, returns an empty
result collection and dispatches no notification of either mode. -/
theorem C10_dry_run (env : PipelineEnv) (db : DB) (order : List String)
    (send single : Bool) :
    (run env db order true send single).1 = [] ∧
    (run env db order true send single).2.2.filter isFetchStart =
      order.map Ev.fetchStart ∧
    (∀ e ∈ (run env db order true send single).2.2,
      isAnalyzeStart e = false ∧ isNotifyEv e = false) := by
  have h := runTasks_dry env (single && send) order db
  rw [run_shape]
  dsimp only
  simp only [not_true, and_false, if_false, List.append_nil]
  exact h

/-- A stub JSON parser that recognises exactly the text `g` as `goodJson`
and fails on everything else. -/
def stubParser : List Char → Option Json :=
  fun t => if t = "g".data then some goodJson else none

/-- An environment whose first response is unparseable text and whose later
responses are well-formed. -/
def envParseFail : Nat → Except String (List Char) :=
  fun k => if k = 1 then Except.ok "bad".data else Except.ok "g".data

/-- An environment raising on attempts 1 and 2 and answering well-formed
text on attempt 3. -/
def envRaise2 : Nat → Except String (List Char) :=
  fun k => if k ≤ 2 then Except.error "boom" else Except.ok "g".data

/-- **C1** (counterexample): a response failing JSON parsing is *not*
retried.  In an environment whose attempt-1 response is unparseable while
attempts 2 and 3 would parse to a full `AnalysisResult`, `analyze` stops
after exactly 1 attempt and 1 model call with no result and no backoff —
whereas the claim says the failing attempt is retried as a unit and the run
yields the successful result by attempt 3. -/
theorem C1_retry_policy_counterexample :
    analyze stubParser (some "key") envParseFail =
      ⟨Except.ok none, 1, 1, []⟩ ∧
    parseResponse stubParser "g".data = some goodResult ∧
    envParseFail 2 = Except.ok "g".data ∧
    envParseFail 3 = Except.ok "g".data := by
  refine ⟨?_, by decide, rfl, rfl⟩
  rfl

/-- **C1** (amended): only attempts that raise (the model call failing) are
retried, with backoff 2 then 4 time-units (`wait_exponential` doubling from
2, capped at 10); raising on attempts 1–2 and succeeding on attempt 3
yields the parsed result with exactly 3 attempts and no 4th; raising on all
3 attempts yields `Exhausted` (`RetryError`) with exactly 3 attempts and no
4th.  A response that fails JSON parsing or schema validation is caught
inside `_parse_response` and is not retried: that run ends after 1 attempt
with no result. -/
theorem C1_retry_policy (jsonLoads : List Char → Option Json)
    (apiKey : Option String) (env : Nat → Except String (List Char))
    (k₀ : String) (hk : apiKey = some k₀) :
    (∀ t r, env 1 = Except.ok t → parseResponse jsonLoads t = some r →
      analyze jsonLoads apiKey env = ⟨Except.ok (some r), 1, 1, []⟩) ∧
    (∀ t, env 1 = Except.ok t → parseResponse jsonLoads t = none →
      analyze jsonLoads apiKey env = ⟨Except.ok none, 1, 1, []⟩) ∧
    (∀ e₁ e₂ t r, env 1 = Except.error e₁ → env 2 = Except.error e₂ →
      env 3 = Except.ok t → parseResponse jsonLoads t = some r →
      analyze jsonLoads apiKey env = ⟨Except.ok (some r), 3, 3, [2, 4]⟩) ∧
    (∀ e₁ e₂ e₃, env 1 = Except.error e₁ → env 2 = Except.error e₂ →
      env 3 = Except.error e₃ →
      analyze jsonLoads apiKey env = ⟨Except.error (), 3, 3, [2, 4]⟩) := by
  subst hk
  have w1 : waitExponential 1 = 2 := rfl
  have w2 : waitExponential 2 = 4 := rfl
  refine ⟨fun t r h1 hp => ?_, fun t h1 hp => ?_,
    fun e₁ e₂ t r h1 h2 h3 hp => ?_, fun e₁ e₂ e₃ h1 h2 h3 => ?_⟩
  · simp [analyze, retryLoop, attemptOnce, h1, hp]
  · simp [analyze, retryLoop, attemptOnce, h1, hp]
  · simp [analyze, retryLoop, attemptOnce, h1, h2, h3, hp, w1, w2]
  · simp [analyze, retryLoop, attemptOnce, h1, h2, h3, w1, w2]

/-- Witness for C1 (amended): raising on attempts 1–2 and succeeding on 3
yields the result after exactly 3 attempts with backoff waits 2 and 4. -/
theorem C1_retry_policy_witness :
    analyze stubParser (some "key") envRaise2 =
      ⟨Except.ok (some goodResult), 3, 3, [2, 4]⟩ :=
  (C1_retry_policy stubParser (some "key") envRaise2 "key" rfl).2.2.1
    "boom" "boom" "g".data goodResult rfl rfl rfl (by decide)

/-- **C9**: `is_crypto` is a pure function of the code (hence deterministic
and side-effect-free) that classifies as Crypto exactly the codes containing
at least one alphabetic character, with `classify("600519") = Equity`,
`classify("BTC-USD") = Crypto` and the documented quirk
`classify("sh600519") = Crypto`. -/
theorem C9_classifier_spec :
    (∀ code : String, isCrypto code = true ↔ ∃ c ∈ code.data, c.isAlpha = true) ∧
    isCrypto "600519" = false ∧ isCrypto "BTC-USD" = true ∧
    isCrypto "sh600519" = true := by
  refine ⟨fun code => ?_, by decide, by decide, by decide⟩
  simp [isCrypto, List.any_eq_true]

/-- **C6**: with no model credential configured (`api_key = None`),
`analyze` returns no result immediately after a single attempt: zero model
calls, no backoff waits, no retry. -/
theorem C6_no_key_short_circuit (jsonLoads : List Char → Option Json)
    (env : Nat → Except String (List Char)) :
    analyze jsonLoads none env =
      ⟨Except.ok none, 1, 0, []⟩ := rfl

/-- **C5**: for every response text, parsing the text wrapped in
`<fence>json ... <fence>` delimiters yields exactly the same result as
parsing the bare text — the fence wrapping is stripped before JSON
parsing.  (Stated for every text and every behaviour of the external JSON
parser, so in particular for every well-formed response.) -/
theorem C5_fence_wrapping_invariance (jsonLoads : List Char → Option Json)
    (t : List Char) :
    parseResponse jsonLoads (fenceWrap t) = parseResponse jsonLoads t := by
  unfold parseResponse sanitize
  rw [stripFences_fenceWrap]

/-- **C8**: every non-empty daily dataset returned by the crypto fetch has
`change[0] = pct_change[0] = 0` and, for `t > 0` (with non-zero closes, so
that the quotient is meaningful), `change[t] = close[t] - close[t-1]` and
`pct_change[t] = change[t] / close[t-1] * 100` — exactly, as the embedding
uses exact rationals. -/
theorem C8_crypto_derived_columns
    (yfDownload : String → Except String (List ℚ)) (symbol : String)
    (f : CryptoFrame) (hf : getCryptoData yfDownload symbol = some f)
    (hnz : ∀ t, t < f.close.length → f.close.getD t 0 ≠ 0) :
    (f.change.length = f.close.length ∧ f.pct_change.length = f.close.length) ∧
    (0 < f.close.length → f.change.getD 0 0 = 0 ∧ f.pct_change.getD 0 0 = 0) ∧
    (∀ t, t + 1 < f.close.length →
      f.change.getD (t + 1) 0 = f.close.getD (t + 1) 0 - f.close.getD t 0 ∧
      f.pct_change.getD (t + 1) 0 =
        f.change.getD (t + 1) 0 / f.close.getD t 0 * 100) := by
  unfold getCryptoData at hf
  cases hyf : yfDownload symbol with
  | error e => rw [hyf] at hf; simp at hf
  | ok closes =>
    rw [hyf] at hf
    dsimp only at hf
    cases he : closes.isEmpty with
    | true => rw [he] at hf; simp at hf
    | false =>
      rw [he] at hf
      simp only [Bool.false_eq_true, if_false] at hf
      injection hf with hf
      have hne : closes ≠ [] := by
        intro h
        rw [h] at he
        simp at he
      subst hf
      refine ⟨⟨fillna_diff_length closes, fillna_pct_length closes⟩,
        fun _ => ⟨fillna_diff_getD_zero closes hne, fillna_pct_getD_zero closes hne⟩,
        fun t ht => ?_⟩
      have hch := fillna_diff_getD_succ closes t ht
      have hpc := fillna_pct_getD_succ closes t ht
      refine ⟨hch, ?_⟩
      have h0 : closes.getD t 0 ≠ 0 := hnz t (Nat.lt_of_succ_lt ht)
      rw [hpc, hch]
      rw [div_sub' _ _ _ h0, div_mul_eq_mul_div, div_mul_eq_mul_div]
      ring_nf

/-- A concrete yfinance oracle for the C8 witness: closes 2 then 4. -/
def yfWitness : String → Except String (List ℚ) := fun _ => Except.ok [2, 4]

/-- The dataframe `get_crypto_data` builds from closes `[2, 4]`. -/
def frameWitness : CryptoFrame := ⟨[2, 4], [0, 2], [0, 100]⟩

/-- Witness for C8 at the concrete dataset with closes `[2, 4]`. -/
theorem C8_crypto_derived_columns_witness :
    frameWitness.change.getD 1 0 =
        frameWitness.close.getD 1 0 - frameWitness.close.getD 0 0 ∧
    frameWitness.pct_change.getD 1 0 =
        frameWitness.change.getD 1 0 / frameWitness.close.getD 0 0 * 100 ∧
    frameWitness.change.getD 0 0 = 0 ∧ frameWitness.pct_change.getD 0 0 = 0 :=
  have h := C8_crypto_derived_columns yfWitness "BTC-USD" frameWitness
    (by simp [getCryptoData, yfWitness, seriesDiff, seriesPctChange, fillna,
          frameWitness]
        norm_num)
    (by intro t ht
        have ht2 : t < 2 := by simpa [frameWitness] using ht
        interval_cases t <;> norm_num [frameWitness])
  ⟨(h.2.2 0 (by decide)).1, (h.2.2 0 (by decide)).2,
    (h.2.1 (by decide)).1, (h.2.1 (by decide)).2⟩

end DailyStock
